import Mathlib

/-!
Shallow embedding of `src/tools/convert_image_to_rgb10.py`, the utility that
converts an 8-bit-per-channel RGB image into a packed 10-bit-per-channel
bitstream (SMPTE 2110-20 Linear RGB layout, 30 bits per pixel).

Modelling decisions, each tied to a line of the source:
* `mkBits v len` models `bitstring.Bits(uint=v, length=len)`: it yields the
  `len` bits of `v`, most significant first, and fails (CreationError) when
  `v` is negative or does not fit in `len` bits.
* `packGrid` models the double loop (`for y in range(image.size[1]): for x in
  range(image.size[0])`) that appends, for each pixel, the three 10-bit
  fields `pixel[0]*4`, `pixel[1]*4`, `pixel[2]*4` to the accumulator.
* `bitsToBytes` models the `buffer.bytes` property of `bitstring`, which
  raises InterpretError when the accumulated bit length is not a whole
  number of bytes, and otherwise returns the bytes (MSB-first groups of 8).
* `mainModel` models `main`: the argv check, the order of the console
  prints, the opening (truncation) of the output file before the loop, and
  the single `output_file.write(buffer.bytes)` at the end.
Channel values are modelled as `Int` (Python integers).
-/

/-- MSB-first list of the low `len` bits of `n`. -/
def toBitsMSB (n : Nat) : Nat → List Bool
  | 0 => []
  | len + 1 => n.testBit len :: toBitsMSB n len

/-- Value of an MSB-first bit list. -/
def ofBitsMSB (l : List Bool) : Nat :=
  l.foldl (fun acc b => 2 * acc + (if b then 1 else 0)) 0

/-- `bitstring.Bits(uint=v, length=len)`: the `len`-bit MSB-first field for
`v`, or a CreationError when `v` is out of range for an unsigned `len`-bit
field. -/
def mkBits (v : Int) (len : Nat) : Except String (List Bool) :=
  if 0 ≤ v ∧ v < (2 : Int) ^ len then
    Except.ok (toBitsMSB v.toNat len)
  else
    Except.error "CreationError"

/-- The decoded image: `width`/`height` are `image.size`, and `px x y` is
`image_data[x, y]`, a triple of channel values (R, G, B). -/
structure ImageGrid where
  width : Nat
  height : Nat
  px : Nat → Nat → Int × Int × Int

/-- An 8-bit channel value, as the image-decoding library guarantees. -/
def validChannel (c : Int) : Prop := 0 ≤ c ∧ c ≤ 255

instance (c : Int) : Decidable (validChannel c) := by
  unfold validChannel; infer_instance

/-- All channels of all pixels inside the grid are 8-bit values. -/
def validGrid (G : ImageGrid) : Prop :=
  ∀ x, x < G.width → ∀ y, y < G.height →
    validChannel (G.px x y).1 ∧ validChannel (G.px x y).2.1 ∧
      validChannel (G.px x y).2.2

instance (G : ImageGrid) : Decidable (validGrid G) := by
  unfold validGrid; infer_instance

/-- Loop body for one pixel: `r`, `g`, `b` fields of 10 bits each for
`pixel[0]*4`, `pixel[1]*4`, `pixel[2]*4`, appended in that order. -/
def packPixel (p : Int × Int × Int) : Except String (List Bool) := do
  let r ← mkBits (p.1 * 4) 10
  let g ← mkBits (p.2.1 * 4) 10
  let b ← mkBits (p.2.2 * 4) 10
  pure (r ++ g ++ b)

/-- The coordinates visited by `for y in range(h): for x in range(w)`,
as (x, y) pairs in visit order (row-major). -/
def rowMajor (w h : Nat) : List (Nat × Nat) :=
  (List.range h).flatMap fun y => (List.range w).map fun x => (x, y)

/-- The loop of `main`: starting from the empty `buffer`, append the three
fields of every pixel in row-major order. -/
def packGrid (G : ImageGrid) : Except String (List Bool) :=
  (rowMajor G.width G.height).foldlM
    (fun acc xy => do pure (acc ++ (← packPixel (G.px xy.1 xy.2)))) []

/-- Byte values of consecutive MSB-first groups of 8 bits (exhaustive on
whole groups; only reached when the length is a multiple of 8). -/
def toBytes : List Bool → List Nat
  | b0 :: b1 :: b2 :: b3 :: b4 :: b5 :: b6 :: b7 :: rest =>
      ofBitsMSB [b0, b1, b2, b3, b4, b5, b6, b7] :: toBytes rest
  | _ => []

/-- The `buffer.bytes` property: InterpretError when the bit length is not a
multiple of 8, otherwise the bytes of the stream. No padding is applied. -/
def bitsToBytes (l : List Bool) : Except String (List Nat) :=
  if l.length % 8 = 0 then Except.ok (toBytes l) else Except.error "InterpretError"

/-- The whole transformation `main` applies to the decoded grid: run the
packing loop, then interpret the accumulator as bytes via `buffer.bytes`. -/
def convert (G : ImageGrid) : Except String (List Nat) := do
  bitsToBytes (← packGrid G)

/-- Observable I/O actions of `main`, in program order. -/
inductive IOEvent where
  | printUsage : IOEvent
  | printInputSize : Nat → Nat → IOEvent
  | openOutput : String → IOEvent
  | printOutputSize : Nat → IOEvent
  | writeBytes : List Nat → IOEvent
deriving DecidableEq

/-- How a run of `main` ends: a `sys.exit` code, or an uncaught exception. -/
inductive Outcome where
  | exited : Nat → Outcome
  | raised : String → Outcome
deriving DecidableEq

/-- `main`, given `argv` and the image decoder as an oracle: the argv-count
check first (usage message, `sys.exit(1)`); then decode, print the input
size, open (truncate) the output file, run the loop, compute `buffer.bytes`
(printing its length), and write it. An exception from the loop or from
`buffer.bytes` aborts the run after the output file was already opened. -/
def mainModel (argv : List String) (decode : String → ImageGrid) :
    List IOEvent × Outcome :=
  if argv.length ≠ 3 then
    ([IOEvent.printUsage], Outcome.exited 1)
  else
    let G := decode (argv.getD 1 "")
    match convert G with
    | Except.ok bs =>
        ([IOEvent.printInputSize G.width G.height,
          IOEvent.openOutput (argv.getD 2 ""),
          IOEvent.printOutputSize bs.length,
          IOEvent.writeBytes bs], Outcome.exited 0)
    | Except.error e =>
        ([IOEvent.printInputSize G.width G.height,
          IOEvent.openOutput (argv.getD 2 "")], Outcome.raised e)

/-- Spec-level description of one channel field: the 10 bits, MSB first, of
the scaled sample `c * 4`. -/
def chanBits (c : Int) : List Bool := toBitsMSB (c * 4).toNat 10

/-- Spec-level description of one pixel: R field, then G, then B. -/
def pixelBits (p : Int × Int × Int) : List Bool :=
  chanBits p.1 ++ chanBits p.2.1 ++ chanBits p.2.2

/-- A concrete 2-by-2 image with four distinct pixels. -/
def gridTwoByTwo : ImageGrid :=
  ⟨2, 2, fun x y => (Int.ofNat (x + 2 * y), Int.ofNat (10 + x), Int.ofNat (20 + y))⟩

/-- A concrete 1-by-1 image whose single pixel is black. -/
def gridOneBlack : ImageGrid := ⟨1, 1, fun _ _ => (0, 0, 0)⟩

/-- A concrete 3-by-1 image (three pixels, 90 bits in total). -/
def gridThreeByOne : ImageGrid := ⟨3, 1, fun x _ => (Int.ofNat x, 100, 200)⟩

/-- The 1-by-1 image of the spec's single-pixel boundary case: pixel
(255, 128, 0). -/
def gridSinglePixel : ImageGrid := ⟨1, 1, fun _ _ => (255, 128, 0)⟩

/-- A concrete zero-area image (width 0, height 5). -/
def gridZeroWidth : ImageGrid := ⟨0, 5, fun _ _ => (7, 7, 7)⟩

/-- A 1-by-1 image whose pixel carries an out-of-range channel value. -/
def gridBadChannel : ImageGrid := ⟨1, 1, fun _ _ => (256, 0, 0)⟩

/-- A 1-by-1 image that stores junk outside the visited coordinates. -/
def gridJunkOutside : ImageGrid :=
  ⟨1, 1, fun x y => if x = 0 ∧ y = 0 then (1, 2, 3) else (9, 9, 9)⟩

/-- The same visible pixel data as `gridJunkOutside`, constant everywhere. -/
def gridPlain : ImageGrid := ⟨1, 1, fun _ _ => (1, 2, 3)⟩

/-- A concrete argv with too few entries. -/
def argvShort : List String := ["convert_image_to_rgb10.py"]

/-- A concrete well-formed argv: program name plus two file arguments. -/
def argvRun : List String := ["convert_image_to_rgb10.py", "in.png", "out.raw"]

/-- A decoder oracle returning a fixed valid 2-by-1 image (two pixels, so
60 bits in total, which is not a multiple of 8). -/
def decodeTwoByOne : String → ImageGrid :=
  fun _ => ⟨2, 1, fun x _ => (Int.ofNat (3 + x), 5, 7)⟩

/-- A decoder oracle returning a fixed zero-area image. -/
def decodeZero : String → ImageGrid := fun _ => ⟨0, 0, fun _ _ => (0, 0, 0)⟩

theorem toBitsMSB_length (n : Nat) : ∀ len, (toBitsMSB n len).length = len := by
  intro len
  induction len with
  | zero => rfl
  | succ k ih => simp [toBitsMSB, ih]

theorem chanBits_length (c : Int) : (chanBits c).length = 10 :=
  toBitsMSB_length _ 10

theorem pixelBits_length (p : Int × Int × Int) : (pixelBits p).length = 30 := by
  simp [pixelBits, chanBits_length]

theorem ofBitsMSB_toBitsMSB_aux (n : Nat) :
    ∀ len acc, (toBitsMSB n len).foldl (fun a b => 2 * a + (if b then 1 else 0)) acc =
      acc * 2 ^ len + n % 2 ^ len := by
  intro len
  induction len with
  | zero => simp [toBitsMSB, Nat.mod_one]
  | succ k ih =>
    intro acc
    have hbit : (if n.testBit k then 1 else 0) = n / 2 ^ k % 2 := by
      rw [Nat.testBit_to_div_mod]
      rcases Nat.mod_two_eq_zero_or_one (n / 2 ^ k) with h | h <;> simp [h]
    have hmod : n % 2 ^ (k + 1) = n % 2 ^ k + 2 ^ k * (n / 2 ^ k % 2) := by
      rw [pow_succ, Nat.mod_mul]
    simp only [toBitsMSB, List.foldl_cons, ih, hbit, hmod]
    ring

theorem ofBitsMSB_toBitsMSB (n len : Nat) (h : n < 2 ^ len) :
    ofBitsMSB (toBitsMSB n len) = n := by
  unfold ofBitsMSB
  rw [ofBitsMSB_toBitsMSB_aux n len 0, Nat.mod_eq_of_lt h]
  ring

theorem mkBits_ok (v : Int) (len : Nat) (h0 : 0 ≤ v) (h1 : v < (2 : Int) ^ len) :
    mkBits v len = Except.ok (toBitsMSB v.toNat len) := by
  unfold mkBits
  rw [if_pos ⟨h0, h1⟩]

theorem packPixel_ok (p : Int × Int × Int)
    (hr : validChannel p.1) (hg : validChannel p.2.1) (hb : validChannel p.2.2) :
    packPixel p = Except.ok (pixelBits p) := by
  obtain ⟨hr0, hr1⟩ := hr
  obtain ⟨hg0, hg1⟩ := hg
  obtain ⟨hb0, hb1⟩ := hb
  have h2 : (2 : Int) ^ 10 = 1024 := by norm_num
  rw [packPixel, mkBits_ok _ 10 (by omega) (by omega),
    mkBits_ok _ 10 (by omega) (by omega), mkBits_ok _ 10 (by omega) (by omega)]
  rfl

theorem okBind {α β : Type} (a : α) (f : α → Except String β) :
    (Except.ok a >>= f) = f a := rfl

theorem errBind {α β : Type} (e : String) (f : α → Except String β) :
    ((Except.error e : Except String α) >>= f) = Except.error e := rfl

theorem mem_rowMajor {w h : Nat} {xy : Nat × Nat} :
    xy ∈ rowMajor w h ↔ xy.1 < w ∧ xy.2 < h := by
  obtain ⟨x, y⟩ := xy
  simp only [rowMajor, List.mem_flatMap, List.mem_map, List.mem_range,
    Prod.mk.injEq]
  constructor
  · rintro ⟨y0, hy0, x0, hx0, rfl, rfl⟩
    exact ⟨hx0, hy0⟩
  · rintro ⟨hx, hy⟩
    exact ⟨y, hy, x, hx, rfl, rfl⟩

theorem rowMajor_eq_map (w h : Nat) :
    rowMajor w h = (List.range (h * w)).map fun N => (N % w, N / w) := by
  rcases Nat.eq_zero_or_pos w with hw | hw
  · subst hw
    simp [rowMajor]
  · induction h with
    | zero => simp [rowMajor]
    | succ k ih =>
      have hsplit : rowMajor w (k + 1) =
          rowMajor w k ++ (List.range w).map fun x => (x, k) := by
        simp only [rowMajor, List.range_succ, List.flatMap_append]
        simp
      rw [hsplit, ih, Nat.succ_mul, List.range_add, List.map_append,
        List.map_map]
      congr 1
      apply List.map_congr_left
      intro a ha
      have ha' : a < w := List.mem_range.mp ha
      simp only [Function.comp_apply]
      have h1 : (k * w + a) % w = a := by
        rw [Nat.mul_comm k w, Nat.mul_add_mod, Nat.mod_eq_of_lt ha']
      have h2 : (k * w + a) / w = k := by
        rw [Nat.mul_comm k w, Nat.mul_add_div hw, Nat.div_eq_of_lt ha']
        omega
      simp [h1, h2]

theorem foldlM_append_ok {α : Type} (f : α → Except String (List Bool))
    (g : α → List Bool) :
    ∀ l : List α, (∀ a ∈ l, f a = Except.ok (g a)) → ∀ acc : List Bool,
      (l.foldlM (fun acc a => do pure (acc ++ (← f a))) acc) =
        Except.ok (acc ++ l.flatMap g) := by
  intro l
  induction l with
  | nil =>
    intro _ acc
    simp [List.foldlM_nil, pure, Except.pure]
  | cons a t ih =>
    intro h acc
    have ha := h a (List.mem_cons_self a t)
    have ht := fun b hb => h b (List.mem_cons_of_mem a hb)
    calc (a :: t).foldlM (fun acc a => do pure (acc ++ (← f a))) acc
        = t.foldlM (fun acc a => do pure (acc ++ (← f a))) (acc ++ g a) := by
          rw [List.foldlM_cons, ha]
          rfl
      _ = Except.ok ((acc ++ g a) ++ t.flatMap g) := ih ht (acc ++ g a)
      _ = Except.ok (acc ++ (a :: t).flatMap g) := by
          rw [List.flatMap_cons, List.append_assoc]

theorem packGrid_ok (G : ImageGrid) (hG : validGrid G) :
    packGrid G = Except.ok
      ((rowMajor G.width G.height).flatMap fun xy => pixelBits (G.px xy.1 xy.2)) := by
  have h : ∀ xy ∈ rowMajor G.width G.height,
      packPixel (G.px xy.1 xy.2) = Except.ok (pixelBits (G.px xy.1 xy.2)) := by
    intro xy hxy
    obtain ⟨hx, hy⟩ := mem_rowMajor.mp hxy
    obtain ⟨h1, h2, h3⟩ := hG xy.1 hx xy.2 hy
    exact packPixel_ok _ h1 h2 h3
  unfold packGrid
  rw [foldlM_append_ok _ _ _ h []]
  rfl

theorem length_flatMap_const {α : Type} (f : α → List Bool) (k : Nat)
    (hf : ∀ a, (f a).length = k) :
    ∀ l : List α, (l.flatMap f).length = l.length * k := by
  intro l
  induction l with
  | nil => simp
  | cons a t ih =>
    rw [List.flatMap_cons, List.length_append, hf, ih, List.length_cons]
    ring

theorem drop_flatMap_const {α : Type} (f : α → List Bool) (k : Nat)
    (hf : ∀ a, (f a).length = k) :
    ∀ (N : Nat) (l : List α), (l.flatMap f).drop (N * k) = (l.drop N).flatMap f := by
  intro N
  induction N with
  | zero => simp
  | succ m ih =>
    intro l
    cases l with
    | nil => simp
    | cons a t =>
      have hsplit : (m + 1) * k = (f a).length + m * k := by
        rw [hf]; ring
      rw [List.flatMap_cons, hsplit, ← List.drop_drop, List.drop_left,
        ih t, List.drop_succ_cons]

theorem flatMap_range_drop (F : Nat → List Bool) (hF : ∀ n, (F n).length = 30)
    (M N : Nat) (hN : N < M) :
    ((List.range M).flatMap F).drop (N * 30) =
      F N ++ ((List.range M).drop (N + 1)).flatMap F := by
  rw [drop_flatMap_const F 30 hF N (List.range M)]
  have hlen : N < (List.range M).length := by simpa using hN
  rw [List.drop_eq_getElem_cons hlen, List.flatMap_cons, List.getElem_range]

theorem pureOk {β : Type} (x : β) : (pure x : Except String β) = Except.ok x := rfl

theorem foldlM_ok_all {α : Type} (f : α → Except String (List Bool)) :
    ∀ (l : List α) (acc r : List Bool),
      l.foldlM (fun acc a => do pure (acc ++ (← f a))) acc = Except.ok r →
      ∀ a ∈ l, ∃ bs, f a = Except.ok bs := by
  intro l
  induction l with
  | nil =>
    intro acc r _ a ha
    cases ha
  | cons a t ih =>
    intro acc r h b hb
    rw [List.foldlM_cons] at h
    cases hfa : f a with
    | error e =>
      rw [hfa, errBind, errBind] at h
      cases h
    | ok bs =>
      rw [hfa, okBind, pureOk, okBind] at h
      cases hb with
      | head => exact ⟨bs, hfa⟩
      | tail _ hbt => exact ih (acc ++ bs) r h b hbt

theorem mkBits_bounds {v : Int} {len : Nat} {bs : List Bool}
    (h : mkBits v len = Except.ok bs) : 0 ≤ v ∧ v < (2 : Int) ^ len := by
  by_contra hc
  rw [mkBits, if_neg hc] at h
  cases h

theorem packPixel_ok_valid {p : Int × Int × Int} {bs : List Bool}
    (h : packPixel p = Except.ok bs) :
    validChannel p.1 ∧ validChannel p.2.1 ∧ validChannel p.2.2 := by
  have h2 : (2 : Int) ^ 10 = 1024 := by norm_num
  rw [show packPixel p = (mkBits (p.1 * 4) 10 >>= fun r =>
      mkBits (p.2.1 * 4) 10 >>= fun g =>
      mkBits (p.2.2 * 4) 10 >>= fun b => pure (r ++ g ++ b)) from rfl] at h
  cases hr : mkBits (p.1 * 4) 10 with
  | error e => rw [hr, errBind] at h; cases h
  | ok rb =>
    rw [hr, okBind] at h
    cases hg : mkBits (p.2.1 * 4) 10 with
    | error e => rw [hg, errBind] at h; cases h
    | ok gb =>
      rw [hg, okBind] at h
      cases hb : mkBits (p.2.2 * 4) 10 with
      | error e => rw [hb, errBind] at h; cases h
      | ok bb =>
        obtain ⟨hr0, hr1⟩ := mkBits_bounds hr
        obtain ⟨hg0, hg1⟩ := mkBits_bounds hg
        obtain ⟨hb0, hb1⟩ := mkBits_bounds hb
        rw [h2] at hr1 hg1 hb1
        exact ⟨⟨by omega, by omega⟩, ⟨by omega, by omega⟩, ⟨by omega, by omega⟩⟩

theorem foldlM_congr_members {α : Type} (f g : α → Except String (List Bool)) :
    ∀ l : List α, (∀ a ∈ l, f a = g a) → ∀ acc : List Bool,
      l.foldlM (fun acc a => do pure (acc ++ (← f a))) acc =
        l.foldlM (fun acc a => do pure (acc ++ (← g a))) acc := by
  intro l
  induction l with
  | nil => intro _ acc; rfl
  | cons a t ih =>
    intro h acc
    have ha := h a (List.mem_cons_self a t)
    have ht := fun b hb => h b (List.mem_cons_of_mem a hb)
    rw [List.foldlM_cons, List.foldlM_cons, ha]
    cases hga : g a with
    | error e => rw [errBind, errBind, errBind]
    | ok bs =>
      rw [okBind, pureOk, okBind]
      exact ih ht (acc ++ bs)

theorem packGrid_ok_range (G : ImageGrid) (hG : validGrid G) :
    packGrid G = Except.ok ((List.range (G.height * G.width)).flatMap
      fun N => pixelBits (G.px (N % G.width) (N / G.width))) := by
  rw [packGrid_ok G hG, rowMajor_eq_map, List.flatMap_map]

theorem take_drop_parts (cr cg cb rest : List Bool) (h1 : cr.length = 10)
    (h2 : cg.length = 10) (h3 : cb.length = 10) :
    ((cr ++ cg ++ cb) ++ rest).take 10 = cr ∧
      (((cr ++ cg ++ cb) ++ rest).drop 10).take 10 = cg ∧
      (((cr ++ cg ++ cb) ++ rest).drop 20).take 10 = cb := by
  have e1 : (cr ++ cg ++ cb) ++ rest = cr ++ (cg ++ (cb ++ rest)) := by
    simp [List.append_assoc]
  have e2 : (cr ++ cg ++ cb) ++ rest = (cr ++ cg) ++ (cb ++ rest) := by
    simp [List.append_assoc]
  refine ⟨?_, ?_, ?_⟩
  · rw [e1, List.take_left' h1]
  · rw [e1, List.drop_left' h1, List.take_left' h2]
  · rw [e2, List.drop_left' (by rw [List.length_append, h1, h2]),
      List.take_left' h3]

/-- C1: the packed bitstream is the concatenation, over pixels in row-major
order, of exactly three 10-bit MSB-first fields per pixel in the order R,
G, B with no padding: the stream has exactly width * height * 30 bits, and
for every row-major index N the 10-bit fields starting at bit offsets
N * 30, N * 30 + 10 and N * 30 + 20 are the R, G and B fields of pixel N
(at grid coordinates (N mod width, N div width)). -/
theorem pack_rowmajor_layout (G : ImageGrid) (hG : validGrid G)
    (N : Nat) (hN : N < G.width * G.height) :
    ∃ bs, packGrid G = Except.ok bs ∧ bs.length = G.width * G.height * 30 ∧
      (bs.drop (N * 30)).take 10 =
        chanBits (G.px (N % G.width) (N / G.width)).1 ∧
      ((bs.drop (N * 30)).drop 10).take 10 =
        chanBits (G.px (N % G.width) (N / G.width)).2.1 ∧
      ((bs.drop (N * 30)).drop 20).take 10 =
        chanBits (G.px (N % G.width) (N / G.width)).2.2 := by
  have hF : ∀ n : Nat,
      ((fun N => pixelBits (G.px (N % G.width) (N / G.width))) n).length = 30 :=
    fun n => pixelBits_length _
  have hpack := packGrid_ok_range G hG
  have hN' : N < G.height * G.width := Nat.mul_comm G.width G.height ▸ hN
  refine ⟨_, hpack, ?_, ?_, ?_, ?_⟩
  · rw [length_flatMap_const _ 30 hF, List.length_range]
    ring
  all_goals {
    rw [flatMap_range_drop _ hF (G.height * G.width) N hN']
    simp only [pixelBits]
    first
      | exact (take_drop_parts _ _ _ _ (chanBits_length _) (chanBits_length _)
          (chanBits_length _)).1
      | exact (take_drop_parts _ _ _ _ (chanBits_length _) (chanBits_length _)
          (chanBits_length _)).2.1
      | exact (take_drop_parts _ _ _ _ (chanBits_length _) (chanBits_length _)
          (chanBits_length _)).2.2
  }

/-- Witness for C1 at the concrete 2-by-2 image and row-major index 2. -/
theorem pack_rowmajor_layout_witness :
    ∃ bs, packGrid gridTwoByTwo = Except.ok bs ∧
      bs.length = gridTwoByTwo.width * gridTwoByTwo.height * 30 ∧
      (bs.drop (2 * 30)).take 10 =
        chanBits (gridTwoByTwo.px (2 % gridTwoByTwo.width)
          (2 / gridTwoByTwo.width)).1 ∧
      ((bs.drop (2 * 30)).drop 10).take 10 =
        chanBits (gridTwoByTwo.px (2 % gridTwoByTwo.width)
          (2 / gridTwoByTwo.width)).2.1 ∧
      ((bs.drop (2 * 30)).drop 20).take 10 =
        chanBits (gridTwoByTwo.px (2 % gridTwoByTwo.width)
          (2 / gridTwoByTwo.width)).2.2 :=
  pack_rowmajor_layout gridTwoByTwo (by decide) 2 (by decide)

/-- C2 (violated by the code): at the 1-by-1 black image the conversion does
not produce ceil(1 * 1 * 30 / 8) = 4 bytes; the accumulator holds 30 bits,
which is not a multiple of 8, so `buffer.bytes` raises InterpretError and no
byte sequence is produced. -/
theorem length_law_fails :
    convert gridOneBlack = Except.error "InterpretError" := rfl

/-- C3 (violated by the code): at the 3-by-1 image the accumulator holds 90
bits; instead of zero-padding the final partial byte, `buffer.bytes` raises
InterpretError and no output is produced. -/
theorem padding_never_happens :
    convert gridThreeByOne = Except.error "InterpretError" := rfl

/-- C4: for every channel value c in [0, 255], the emitted 10-bit field is
accepted by the packer and encodes exactly c * 4, which is a multiple of 4
and lies in [0, 1020] (so 1021 to 1023 are never produced). -/
theorem scaling_law (c : Int) (h0 : 0 ≤ c) (h1 : c ≤ 255) :
    mkBits (c * 4) 10 = Except.ok (chanBits c) ∧
      ofBitsMSB (chanBits c) = (c * 4).toNat ∧
      (c * 4).toNat % 4 = 0 ∧ (c * 4).toNat ≤ 1020 := by
  have h2 : (2 : Int) ^ 10 = 1024 := by norm_num
  refine ⟨?_, ?_, ?_, ?_⟩
  · rw [mkBits_ok _ 10 (by omega) (by omega)]
    rfl
  · refine ofBitsMSB_toBitsMSB _ 10 ?_
    have : (2 : Nat) ^ 10 = 1024 := by norm_num
    omega
  · omega
  · omega

/-- Witness for C4 at the channel value 255. -/
theorem scaling_law_witness :
    mkBits (255 * 4) 10 = Except.ok (chanBits 255) ∧
      ofBitsMSB (chanBits 255) = ((255 : Int) * 4).toNat ∧
      ((255 : Int) * 4).toNat % 4 = 0 ∧ ((255 : Int) * 4).toNat ≤ 1020 :=
  scaling_law 255 (by norm_num) (by norm_num)

/-- C5 (violated by the code): the 1-by-1 image with pixel (255, 128, 0)
does pack into the expected 30-bit stream, but the conversion then raises
InterpretError from `buffer.bytes` instead of producing the 4 padded bytes
the claim promises. -/
theorem single_pixel_case_raises :
    packGrid gridSinglePixel = Except.ok (pixelBits (255, 128, 0)) ∧
      convert gridSinglePixel = Except.error "InterpretError" :=
  ⟨rfl, rfl⟩

/-- C6: a zero-area image (width 0 or height 0) converts successfully to a
zero-length byte sequence. -/
theorem empty_grid_empty_output (G : ImageGrid)
    (h : G.width = 0 ∨ G.height = 0) : convert G = Except.ok [] := by
  have hrm : rowMajor G.width G.height = [] := by
    rcases h with h | h <;> rw [rowMajor, h] <;> simp
  have hpack : packGrid G = Except.ok [] := by
    rw [packGrid, hrm]
    rfl
  rw [convert, hpack, okBind]
  rfl

/-- Witness for C6 at the concrete 0-by-5 image. -/
theorem empty_grid_empty_output_witness : convert gridZeroWidth = Except.ok [] :=
  empty_grid_empty_output gridZeroWidth (Or.inl rfl)

/-- C7: if any pixel inside the grid has a channel value outside [0, 255],
the conversion fails with an error instead of producing output that wraps
or truncates the value (the 10-bit field constructor rejects it). -/
theorem invalid_channel_fails (G : ImageGrid) (x y : Nat)
    (hx : x < G.width) (hy : y < G.height)
    (hbad : ¬(validChannel (G.px x y).1 ∧ validChannel (G.px x y).2.1 ∧
      validChannel (G.px x y).2.2)) :
    ∃ e, convert G = Except.error e := by
  cases hp : packGrid G with
  | error e =>
    refine ⟨e, ?_⟩
    rw [convert, hp, errBind]
  | ok bs =>
    exfalso
    have hmem : (x, y) ∈ rowMajor G.width G.height := mem_rowMajor.mpr ⟨hx, hy⟩
    rw [packGrid] at hp
    obtain ⟨pb, hpb⟩ :=
      foldlM_ok_all (fun xy : Nat × Nat => packPixel (G.px xy.1 xy.2))
        (rowMajor G.width G.height) [] bs hp (x, y) hmem
    exact hbad (packPixel_ok_valid hpb)

/-- Witness for C7 at the 1-by-1 image whose R channel is 256. -/
theorem invalid_channel_fails_witness :
    ∃ e, convert gridBadChannel = Except.error e :=
  invalid_channel_fails gridBadChannel 0 0 (by decide) (by decide) (by decide)

/-- C8: packing is deterministic and depends only on the pixel data inside
the grid and its dimensions: two grids with equal width, height and pixels
at every in-range coordinate convert to identical results. -/
theorem deterministic_pack (G1 G2 : ImageGrid)
    (hw : G1.width = G2.width) (hh : G1.height = G2.height)
    (hpx : ∀ x, x < G1.width → ∀ y, y < G1.height → G1.px x y = G2.px x y) :
    convert G1 = convert G2 := by
  have hpack : packGrid G1 = packGrid G2 := by
    rw [packGrid, packGrid, hw, hh]
    refine foldlM_congr_members (fun xy : Nat × Nat => packPixel (G1.px xy.1 xy.2))
      (fun xy : Nat × Nat => packPixel (G2.px xy.1 xy.2)) _ ?_ []
    intro a ha
    obtain ⟨hx, hy⟩ := mem_rowMajor.mp ha
    show packPixel (G1.px a.1 a.2) = packPixel (G2.px a.1 a.2)
    rw [hpx a.1 (by omega) a.2 (by omega)]
  rw [convert, convert, hpack]

/-- Witness for C8 at two 1-by-1 grids that agree on their single visible
pixel but differ outside the grid bounds. -/
theorem deterministic_pack_witness : convert gridJunkOutside = convert gridPlain :=
  deterministic_pack gridJunkOutside gridPlain rfl rfl (by decide)

/-- C9: with an argument count other than three entries, `main` prints the
usage message and exits with code 1, and no file is opened or written. -/
theorem usage_exit (argv : List String) (decode : String → ImageGrid)
    (h : argv.length ≠ 3) :
    mainModel argv decode = ([IOEvent.printUsage], Outcome.exited 1) ∧
      (∀ p, IOEvent.openOutput p ∉ (mainModel argv decode).1) ∧
      ∀ bs, IOEvent.writeBytes bs ∉ (mainModel argv decode).1 := by
  have hmain : mainModel argv decode = ([IOEvent.printUsage], Outcome.exited 1) := by
    rw [mainModel, if_pos h]
  refine ⟨hmain, ?_, ?_⟩ <;> intro z <;> rw [hmain] <;> simp

/-- Witness for C9 at a one-entry argv. -/
theorem usage_exit_witness :
    mainModel argvShort decodeZero = ([IOEvent.printUsage], Outcome.exited 1) ∧
      (∀ p, IOEvent.openOutput p ∉ (mainModel argvShort decodeZero).1) ∧
      ∀ bs, IOEvent.writeBytes bs ∉ (mainModel argvShort decodeZero).1 :=
  usage_exit argvShort decodeZero (by decide)

theorem mul30_mod8 (k : Nat) (hk : k % 4 ≠ 0) : (k * 30) % 8 ≠ 0 := by
  omega

/-- C10 (implicit from the code): the output file is opened for writing
(truncated) before any pixel is processed and written only once at the end;
for a well-formed non-empty grid whose pixel count is not a multiple of 4,
the `buffer.bytes` step raises InterpretError, so the run ends with the
output file opened but never written (left empty). -/
theorem open_truncate_then_raise (argv : List String)
    (decode : String → ImageGrid) (h3 : argv.length = 3)
    (hv : validGrid (decode (argv.getD 1 "")))
    (hne : 0 < (decode (argv.getD 1 "")).width * (decode (argv.getD 1 "")).height)
    (hmod : (decode (argv.getD 1 "")).width *
      (decode (argv.getD 1 "")).height % 4 ≠ 0) :
    mainModel argv decode =
      ([IOEvent.printInputSize (decode (argv.getD 1 "")).width
          (decode (argv.getD 1 "")).height,
        IOEvent.openOutput (argv.getD 2 "")], Outcome.raised "InterpretError") ∧
      ∀ bs, IOEvent.writeBytes bs ∉ (mainModel argv decode).1 := by
  have hbits := packGrid_ok_range (decode (argv.getD 1 "")) hv
  have hlen : ((List.range ((decode (argv.getD 1 "")).height *
      (decode (argv.getD 1 "")).width)).flatMap
        fun N => pixelBits ((decode (argv.getD 1 "")).px
          (N % (decode (argv.getD 1 "")).width)
          (N / (decode (argv.getD 1 "")).width))).length =
      (decode (argv.getD 1 "")).width * (decode (argv.getD 1 "")).height * 30 := by
    rw [length_flatMap_const _ 30 (fun n => pixelBits_length _), List.length_range]
    ring
  have hconv : convert (decode (argv.getD 1 "")) =
      Except.error "InterpretError" := by
    rw [convert, hbits, okBind, bitsToBytes, hlen, if_neg (mul30_mod8 _ hmod)]
  have hmain : mainModel argv decode =
      ([IOEvent.printInputSize (decode (argv.getD 1 "")).width
          (decode (argv.getD 1 "")).height,
        IOEvent.openOutput (argv.getD 2 "")], Outcome.raised "InterpretError") := by
    rw [mainModel, if_neg (by omega)]
    simp only [hconv]
  refine ⟨hmain, ?_⟩
  intro bs
  rw [hmain]
  simp

/-- Witness for C10 at a well-formed argv and a decoder yielding a valid
2-by-1 image (two pixels: 60 bits, not a multiple of 8). -/
theorem open_truncate_then_raise_witness :
    mainModel argvRun decodeTwoByOne =
      ([IOEvent.printInputSize (decodeTwoByOne (argvRun.getD 1 "")).width
          (decodeTwoByOne (argvRun.getD 1 "")).height,
        IOEvent.openOutput (argvRun.getD 2 "")], Outcome.raised "InterpretError") ∧
      ∀ bs, IOEvent.writeBytes bs ∉ (mainModel argvRun decodeTwoByOne).1 :=
  open_truncate_then_raise argvRun decodeTwoByOne (by decide) (by decide)
    (by decide) (by decide)
